import Mathlib

/-!
Verification of `pureport/cli/util.py`: a utility that adapts the public
methods and properties of a client object into a tree of CLI commands and
groups (click.Command / click.Group), forwarding arguments and printing
JSON-serialized return values.

The embedding models Python values, exceptions, `json.dumps`, the observable
effects of an invocation (standard output and the trace of calls into the
wrapped client functions), and the relevant behaviour of the click runtime
(context objects carrying the receiver, `pass_obj` / `pass_context`,
`update_wrapper` metadata copying, and group/command construction).
-/

/-- A Python value, as far as this module observes them: `None`, booleans,
integers, strings, lists, and opaque non-serializable objects (identified by
a tag). -/
inductive Value where
  | none
  | bool (b : Bool)
  | int (n : Int)
  | str (s : String)
  | list (xs : List Value)
  | obj (id : Nat)

/-- Python's `x is not None` is a check against the unique `None` object. -/
def Value.isNone : Value → Bool
  | .none => true
  | _ => false

/-- A Python exception: `TypeError` (raised e.g. by `json.dumps` on a
non-serializable value, or by calling a non-callable) or an arbitrary
user-level exception identified by a tag. -/
inductive PyError where
  | typeError (msg : String)
  | userError (tag : String)

/-- One hex digit (lower case), as used by `json.dumps` in `\uXXXX` escapes. -/
def hexDigit (n : Nat) : Char :=
  if n < 10 then Char.ofNat (48 + n) else Char.ofNat (87 + n)

/-- JSON string escaping as performed by `json.dumps` with its defaults
(`ensure_ascii=True`): the two-character escapes for quote, backslash and
the common control characters, and `\uXXXX` for other control or non-ASCII
characters. -/
def escapeChar (c : Char) : List Char :=
  if c = '"' then ['\\', '"']
  else if c = '\\' then ['\\', '\\']
  else if c = Char.ofNat 8 then ['\\', 'b']
  else if c = Char.ofNat 12 then ['\\', 'f']
  else if c = Char.ofNat 10 then ['\\', 'n']
  else if c = Char.ofNat 13 then ['\\', 'r']
  else if c = Char.ofNat 9 then ['\\', 't']
  else if c.toNat < 32 ∨ c.toNat > 126 then
    ['\\', 'u', hexDigit (c.toNat / 4096 % 16), hexDigit (c.toNat / 256 % 16),
      hexDigit (c.toNat / 16 % 16), hexDigit (c.toNat % 16)]
  else [c]

/-- The body of a JSON string literal for `s`. -/
def escapeString (s : String) : String :=
  ⟨s.data.flatMap escapeChar⟩

mutual

/-- `json.dumps` with default arguments on the modelled values: `null`,
`true`/`false`, decimal integers, escaped strings, `[a, b]` lists with the
default `", "` separator; a value that is not JSON-serializable raises
`TypeError`. -/
def dumps : Value → Except PyError String
  | .none => .ok "null"
  | .bool true => .ok "true"
  | .bool false => .ok "false"
  | .int n => .ok (toString n)
  | .str s => .ok ("\"" ++ escapeString s ++ "\"")
  | .list xs => do
      let ss ← dumpsList xs
      .ok ("[" ++ String.intercalate ", " ss ++ "]")
  | .obj _ => .error (.typeError "Object is not JSON serializable")

/-- `json.dumps` on each element of a list, left to right, stopping at the
first serialization failure. -/
def dumpsList : List Value → Except PyError (List String)
  | [] => .ok []
  | v :: vs => do
      let s ← dumps v
      let ss ← dumpsList vs
      .ok (s :: ss)

end

/-- One call into a wrapped client function: which function (by identity),
with which receiver (`self`) and which further arguments. -/
structure CallEvent where
  fn : Nat
  receiver : Value
  args : List Value

/-- The observable effects of one CLI invocation: the lines written to
standard output by `click.echo`, and the trace of calls made into the
client's functions. -/
structure Effects where
  stdout : List String := []
  calls : List CallEvent := []

/-- The invocation monad: Python exceptions over the observable effects. -/
abbrev M := EStateM PyError Effects

/-- `click.echo`: write one line to standard output. -/
def echo (s : String) : M Unit :=
  fun st => .ok () { st with stdout := st.stdout ++ [s] }

/-- Lift the result of a pure Python expression into `M`, propagating a
raised exception. -/
def ofPy {α : Type} : Except PyError α → M α
  | .ok a => fun st => .ok a st
  | .error e => fun st => .error e st

/-- Lexicographic comparison of character lists (Python's string `<=` on the
underlying code points), used to model the sorted order of `dir()`. -/
def charsLe : List Char → List Char → Bool
  | [], _ => true
  | _ :: _, [] => false
  | a :: as, b :: bs => if a < b then true else if b < a then false else charsLe as bs

/-- Lexicographic order on strings, as Python compares attribute names. -/
def nameLe (a b : String) : Prop :=
  charsLe a.data b.data = true

instance : DecidableRel nameLe := fun a b => by
  unfold nameLe; infer_instance

/-- Python's `name.startswith('_')`. -/
def startsWithUnderscore (s : String) : Bool :=
  match s.data with
  | c :: _ => c = '_'
  | [] => false

/-- One piece of CLI-facing parameter metadata declared on a client function
(a click `@option`/`@argument` with its help text), stored on the function
object in `__click_params__`. -/
structure Param where
  pname : String
  isArgument : Bool
  help : String
deriving DecidableEq

/-- A Python function object as this module observes it: its identity (for
the call trace), its `__name__` and `__doc__`, its CLI parameter metadata
(`__click_params__`, living in `__dict__`), and its call behaviour: given the
receiver (`self`) and the remaining arguments it returns a value or raises. -/
structure PyFunction where
  id : Nat
  name : String
  doc : String
  click_params : List Param
  run : Value → List Value → Except PyError Value

/-- A Python `property` descriptor; only its getter is relevant here. -/
structure PyProperty where
  fget : PyFunction

/-- The declared input of the two builders: `property|function f`. -/
inductive FuncOrProp where
  | func (f : PyFunction)
  | prop (p : PyProperty)

/-- `f.fget if isinstance(f, property) else f` for a `property|function`
input. -/
def FuncOrProp.actual : FuncOrProp → PyFunction
  | .prop p => p.fget
  | .func f => f

/-- A command descriptor handed to `construct_commands`: either a bare
Python object (a callable or property — the leaf case) or a dict, holding an
optional value at key `'context'` and a list of child descriptors at key
`'commands'`. -/
inductive Desc where
  | obj (x : FuncOrProp)
  | dict (context : Option FuncOrProp) (commands : List Desc)

/-- A dict used in callable position (a descriptor that reaches
`__create_client_command` without being a function or property):
`update_wrapper` copies no `__name__`/`__doc__`/`__click_params__` from it
(dicts carry none, and missing attributes are skipped), so the wrapper keeps
its own name `new_func`; calling it raises `TypeError`. -/
def dictCallable : PyFunction :=
  { id := 0, name := "new_func", doc := "",
    click_params := [],
    run := fun _ _ => .error (.typeError "dict object is not callable") }

/-- `f.fget if isinstance(f, property) else f`, applied to a descriptor in
leaf position: a property yields its getter, a function is used unchanged,
and a dict is not a property, so it is used as the callable itself. -/
def Desc.actual_f : Desc → PyFunction
  | .obj (.prop p) => p.fget
  | .obj (.func f) => f
  | .dict _ _ => dictCallable

/-- The click invocation context, as far as this module touches it: its
`obj` attribute, the receiver published for the commands below. -/
structure Context where
  obj : Value

/-- The callback of a built click command: run under the current context
with the CLI-supplied arguments, producing a return value and the (possibly
updated) context. -/
def Callback : Type :=
  Context → List Value → M (Value × Context)

/-- Calling a client function from a wrapper: the call is recorded in the
trace, then the function's behaviour either returns a value or raises. -/
def callPy (f : PyFunction) (r : Value) (args : List Value) : M Value :=
  fun st =>
    match f.run r args with
    | .ok v => .ok v { st with calls := st.calls ++ [⟨f.id, r, args⟩] }
    | .error e => .error e { st with calls := st.calls ++ [⟨f.id, r, args⟩] }

/-- A Python function object in wrapper position: what `update_wrapper` and
the click decorators read off it. -/
structure Wrapper where
  name : String
  doc : String
  click_params : List Param
  callback : Callback

/-- `functools.update_wrapper(wrapper, wrapped)`: copies `__name__` and
`__doc__` and updates `__dict__` (which carries `__click_params__`) from the
wrapped function onto the wrapper, leaving the wrapper's behaviour alone. -/
def update_wrapper (wrapper : Wrapper) (wrapped : PyFunction) : Wrapper :=
  { wrapper with
      name := wrapped.name, doc := wrapped.doc,
      click_params := wrapped.click_params }

/-- A built `click.Command` (also the command part of a `click.Group`): a
fresh object (identified by `oid`), named after the wrapper, exposing the
wrapper's parameter metadata and help text, and invoking the wrapper's
callback. -/
structure ClickCommand where
  oid : Nat
  name : String
  help : String
  params : List Param
  callback : Callback

/-- `command()(new_func)` / the command part of `group()(new_func)`: click
builds a fresh command object and parses the parameter metadata off the
decorated function. -/
def clickCommandOf (w : Wrapper) (fresh : Nat) : ClickCommand :=
  { oid := fresh, name := w.name, help := w.doc, params := w.click_params,
    callback := w.callback }

/-- `new_func` of `__create_client_command`, with `@pass_obj` applied: click
supplies `ctx.obj` as `obj`; the wrapper calls the wrapped function as
`actual_f(obj, *args, **kwargs)`, echoes `dumps(response)` if the response
is not `None`, and returns the response. -/
def commandNewFunc (actual_f : PyFunction) : Callback :=
  fun ctx args => do
    let response ← callPy actual_f ctx.obj args
    if response.isNone then
      pure (response, ctx)
    else do
      let s ← ofPy (dumps response)
      echo s
      pure (response, ctx)

/-- `new_func` of `__create_client_group`, with `@pass_obj` and
`@pass_context` applied: click supplies the context and `ctx.obj`; the
wrapper sets `ctx.obj` to `actual_f(obj, *args, **kwargs)`; a Python
function body with no return statement returns `None`. -/
def groupNewFunc (actual_f : PyFunction) : Callback :=
  fun ctx args => do
    let newObj ← callPy actual_f ctx.obj args
    pure (Value.none, { ctx with obj := newObj })

/-- `__create_client_group(f)`: extract the getter from a property, build
the context-setting `new_func`, copy the metadata with `update_wrapper`, and
let `group()` build the (fresh) group object from it. -/
def __create_client_group (f : FuncOrProp) (fresh : Nat) : ClickCommand :=
  let actual_f := f.actual
  let new_func : Wrapper :=
    { name := "new_func", doc := "", click_params := [],
      callback := groupNewFunc actual_f }
  let new_func := update_wrapper new_func actual_f
  clickCommandOf new_func fresh

/-- `__create_client_command(f)`: extract the getter from a property, build
the echoing `new_func`, copy the metadata with `update_wrapper`, and let
`command()` build the (fresh) command object from it. -/
def __create_client_command (f : Desc) (fresh : Nat) : ClickCommand :=
  let actual_f := f.actual_f
  let new_func : Wrapper :=
    { name := "new_func", doc := "", click_params := [],
      callback := commandNewFunc actual_f }
  let new_func := update_wrapper new_func actual_f
  clickCommandOf new_func fresh

/-- A built CLI node: a `click.Command` leaf or a `click.Group` with its
attached children. -/
inductive Node where
  | cmd (c : ClickCommand)
  | grp (c : ClickCommand) (children : List Node)

/-- `Group.add_command`: attach a child to a group (click keeps children in
insertion order). On a plain command it is not available; the builder below
only ever calls it on groups. -/
def Node.add_command (g : Node) (child : Node) : Node :=
  match g with
  | .grp c cs => .grp c (cs ++ [child])
  | .cmd c => .cmd c

mutual

/-- The loop body of `construct_commands` for one descriptor: if
`isinstance(cmd, dict) and 'context' in cmd`, build a group from the
`'context'` entry, recursively build the `'commands'` list and attach each
built child with `add_command` before the group is yielded; otherwise hand
the descriptor to `__create_client_command`. The `Nat` is the allocation
counter supplying the identity of each fresh click object. -/
def construct_one : Desc → Nat → Node × Nat
  | Desc.dict (some ctxf) childDescs, n =>
      let grp := Node.grp (__create_client_group ctxf n) []
      let built := construct_commands childDescs (n + 1)
      let grp := built.1.foldl Node.add_command grp
      (grp, built.2)
  | other, n => (Node.cmd (__create_client_command other n), n + 1)

/-- `construct_commands(commands)`: walk the descriptor list in order,
yielding one built node per descriptor. The allocation counter is threaded
left to right, so the generator's yield order is the allocation order. -/
def construct_commands : List Desc → Nat → List Node × Nat
  | [], n => ([], n)
  | cmd :: rest, n =>
      let first := construct_one cmd n
      let restBuilt := construct_commands rest first.2
      (first.1 :: restBuilt.1, restBuilt.2)

end

/-- Click's invocation of a group followed by one of its child commands: the
group's callback runs first on the current context (it may replace
`ctx.obj`), then the child's callback runs on the resulting context. -/
def invokeGroupThenChild (g child : ClickCommand) (ctx : Context)
    (gargs cargs : List Value) : M (Value × Context) := do
  let r ← g.callback ctx gargs
  child.callback r.2 cargs

/-- A resolved Python attribute as `find_client_commands` classifies it: a
plain function, a bound method, a generator function, or any other value
(the classification the `inspect` predicates perform). -/
inductive Attr where
  | function (f : PyFunction)
  | boundMethod (f : PyFunction)
  | generatorFunction (f : PyFunction)
  | plain (v : Value)

/-- `isgeneratorfunction(attr) or isfunction(attr) or ismethod(attr)`. -/
def isClientCommand : Attr → Bool
  | .function _ => true
  | .boundMethod _ => true
  | .generatorFunction _ => true
  | .plain _ => false

/-- A Python object as `find_client_commands` observes it: its attribute
table, mapping names to resolved values. -/
structure PyObject where
  attrs : List (String × Attr)

/-- `dir(obj)`: the attribute names, sorted lexicographically. The sort is
modelled by a stable insertion sort, as any correct sort of distinct names
agrees with it. -/
def dir_names (o : PyObject) : List String :=
  List.insertionSort nameLe (o.attrs.map Prod.fst)

/-- `getattr(obj, name)`: resolve an attribute by name. -/
def getattr (o : PyObject) (name : String) : Option Attr :=
  (o.attrs.find? (fun p => p.1 = name)).map Prod.snd

/-- The loop body of `find_client_commands`: walk the given names in order,
skip names starting with an underscore, resolve the rest, and append those
classified as commands. -/
def find_go (o : PyObject) : List String → List Attr
  | [] => []
  | name :: rest =>
    if startsWithUnderscore name then
      find_go o rest
    else
      match getattr o name with
      | some attr =>
          if isClientCommand attr then attr :: find_go o rest else find_go o rest
      | Option.none => find_go o rest

/-- `find_client_commands(obj)`: iterate over `dir(obj)` and collect the
public attributes that are functions, bound methods or generator
functions. -/
def find_client_commands (o : PyObject) : List Attr :=
  find_go o (dir_names o)

/-- The same loop, additionally remembering which attribute name produced
each collected value (used to state the ordering of the result). -/
def find_go_named (o : PyObject) : List String → List (String × Attr)
  | [] => []
  | name :: rest =>
    if startsWithUnderscore name then
      find_go_named o rest
    else
      match getattr o name with
      | some attr =>
          if isClientCommand attr then (name, attr) :: find_go_named o rest
          else find_go_named o rest
      | Option.none => find_go_named o rest

/-- `find_client_commands` paired with the originating attribute names. -/
def find_named (o : PyObject) : List (String × Attr) :=
  find_go_named o (dir_names o)

/-- The construction-invariant part of a built click object: its name and
its parameter metadata (everything except its allocation identity and its
behaviour). -/
structure SkelInfo where
  sname : String
  sparams : List Param
deriving DecidableEq

/-- The shape of a built CLI tree: which nodes are commands, which are
groups, with which metadata, and how the children hang off the groups. -/
inductive Skel where
  | cmd (info : SkelInfo)
  | grp (info : SkelInfo) (children : List Skel)

mutual

/-- The shape of one built node. -/
def Node.skel : Node → Skel
  | .cmd c => .cmd ⟨c.name, c.params⟩
  | .grp c cs => .grp ⟨c.name, c.params⟩ (Node.skelList cs)

/-- The shapes of a list of built nodes. -/
def Node.skelList : List Node → List Skel
  | [] => []
  | node :: rest => Node.skel node :: Node.skelList rest

end

mutual

/-- The allocation identities of every click object in a built node. -/
def Node.oids : Node → List Nat
  | .cmd c => [c.oid]
  | .grp c cs => c.oid :: Node.oidsList cs

/-- The allocation identities of every click object in a list of nodes. -/
def Node.oidsList : List Node → List Nat
  | [] => []
  | node :: rest => Node.oids node ++ Node.oidsList rest

end

mutual

/-- How many click objects building one descriptor allocates: itself, plus
the recursively built children if it is a context dict. -/
def descCountOne : Desc → Nat
  | Desc.dict (some _) cs => 1 + descCount cs
  | _ => 1

/-- How many click objects building a descriptor list allocates. -/
def descCount : List Desc → Nat
  | [] => 0
  | d :: rest => descCountOne d + descCount rest

end

/-- Is a descriptor `isinstance(cmd, dict) and 'context' in cmd`? -/
def Desc.hasContextKey : Desc → Bool
  | .dict (some _) _ => true
  | _ => false

/-- Is a built node a group? -/
def Node.isGroup : Node → Bool
  | .grp _ _ => true
  | .cmd _ => false

mutual

/-- The tree-builder algorithm as §4.4 of the specification words it, for
one descriptor: an internal node (a dict with a `context` key) becomes a
group for its `context` entry with all of its `commands` children
recursively built and attached in order, and a leaf becomes a command.
Stated over shapes, to be compared with what `construct_commands`
produces. -/
def specBuildOne : Desc → Skel
  | Desc.dict (some ctxf) cs =>
      Skel.grp ⟨ctxf.actual.name, ctxf.actual.click_params⟩ (specTreeBuild cs)
  | d => Skel.cmd ⟨d.actual_f.name, d.actual_f.click_params⟩

/-- The tree-builder algorithm as the specification words it on a
descriptor list: depth-first, preserving input order at every level. -/
def specTreeBuild : List Desc → List Skel
  | [] => []
  | d :: rest => specBuildOne d :: specTreeBuild rest

end

/-!
Concrete sample client functions and a sample client object, used to
exercise the definitions on closed inputs.
-/

/-- A sample CLI parameter declaration. -/
def sampleParam : Param :=
  { pname := "account_id", isArgument := true, help := "the account" }

/-- A sample client method returning a JSON-serializable list. -/
def fList : PyFunction :=
  { id := 2, name := "list", doc := "List the accounts.",
    click_params := [sampleParam],
    run := fun _ _ => .ok (Value.list [Value.int 1]) }

/-- A sample client method returning `None`. -/
def fTouch : PyFunction :=
  { id := 3, name := "touch", doc := "", click_params := [],
    run := fun _ _ => .ok Value.none }

/-- A sample client method that raises. -/
def fRaise : PyFunction :=
  { id := 4, name := "boom", doc := "", click_params := [],
    run := fun _ _ => .error (.userError "boom") }

/-- A sample client method returning a value `json.dumps` rejects. -/
def fBad : PyFunction :=
  { id := 5, name := "bad", doc := "", click_params := [],
    run := fun _ _ => .ok (Value.obj 9) }

/-- A sample context property getter: returns a sub-client object. -/
def gAccounts : PyFunction :=
  { id := 1, name := "accounts", doc := "The accounts client.",
    click_params := [],
    run := fun _ _ => .ok (Value.obj 7) }

/-- A sample client object with a mix of public callables, a private
attribute and a public non-callable attribute. -/
def sampleObj : PyObject :=
  { attrs := [("list", Attr.function fList),
              ("_private", Attr.function fRaise),
              ("name", Attr.plain (Value.str "x")),
              ("gen", Attr.generatorFunction fTouch)] }

/-- A sample descriptor tree: one context group with two leaf children,
followed by a top-level leaf. -/
def sampleDescs : List Desc :=
  [Desc.dict (some (FuncOrProp.prop { fget := gAccounts }))
      [Desc.obj (FuncOrProp.func fList), Desc.obj (FuncOrProp.func fTouch)],
   Desc.obj (FuncOrProp.func fRaise)]

theorem run_bind {α β : Type} (x : M α) (g : α → M β) (st : Effects) :
    (x >>= g).run st =
      match x.run st with
      | .ok a st1 => (g a).run st1
      | .error e st1 => .error e st1 := by
  cases h : x.run st with
  | ok a st1 =>
      replace h : x st = .ok a st1 := h
      show EStateM.bind x g st = _
      unfold EStateM.bind
      rw [h]
      rfl
  | error e st1 =>
      replace h : x st = .error e st1 := h
      show EStateM.bind x g st = _
      unfold EStateM.bind
      rw [h]

theorem run_pure {α : Type} (a : α) (st : Effects) :
    (pure a : M α).run st = .ok a st := rfl

theorem callPy_run (f : PyFunction) (r : Value) (args : List Value) (st : Effects) :
    (callPy f r args).run st =
      match f.run r args with
      | .ok v => .ok v { st with calls := st.calls ++ [⟨f.id, r, args⟩] }
      | .error e => .error e { st with calls := st.calls ++ [⟨f.id, r, args⟩] } := rfl

theorem ofPy_run {α : Type} (x : Except PyError α) (st : Effects) :
    (ofPy x).run st =
      match x with
      | .ok a => .ok a st
      | .error e => .error e st := by
  cases x <;> rfl

theorem echo_run (s : String) (st : Effects) :
    (echo s).run st = .ok () { st with stdout := st.stdout ++ [s] } := rfl

theorem charsLe_total (as bs : List Char) : charsLe as bs = true ∨ charsLe bs as = true := by
  induction as generalizing bs with
  | nil => left; rfl
  | cons a as ih =>
    cases bs with
    | nil => right; rfl
    | cons b bs =>
      by_cases h1 : a < b
      · left; simp [charsLe, h1]
      · by_cases h2 : b < a
        · right; simp [charsLe, h1, h2]
        · have := ih bs
          simpa [charsLe, h1, h2] using this

theorem charsLe_trans (as bs cs : List Char) (h1 : charsLe as bs = true)
    (h2 : charsLe bs cs = true) : charsLe as cs = true := by
  induction as generalizing bs cs with
  | nil => rfl
  | cons a as ih =>
    cases bs with
    | nil => simp [charsLe] at h1
    | cons b bs =>
      cases cs with
      | nil => simp [charsLe] at h2
      | cons c cs =>
        simp only [charsLe] at h1 h2 ⊢
        by_cases hab : a < b
        · by_cases hbc : b < c
          · simp [lt_trans hab hbc]
          · by_cases hcb : c < b
            · simp [hbc, hcb] at h2
            · have hbc' : b = c := le_antisymm (not_lt.mp hcb) (not_lt.mp hbc)
              subst hbc'
              simp [hab]
        · by_cases hba : b < a
          · simp [hab, hba] at h1
          · have hab' : a = b := le_antisymm (not_lt.mp hba) (not_lt.mp hab)
            subst hab'
            by_cases hac : a < c
            · simp [hac]
            · by_cases hca : c < a
              · simp [hac, hca] at h2
              · simp only [hab, hba, if_neg, Bool.if_false_left] at h1
                simp only [hac, hca, if_neg, Bool.if_false_left] at h2 ⊢
                exact ih bs cs (by simpa using h1) (by simpa using h2)

theorem foldl_add_command (c : ClickCommand) (acc children : List Node) :
    children.foldl Node.add_command (Node.grp c acc) = Node.grp c (acc ++ children) := by
  induction children generalizing acc with
  | nil => simp
  | cons x xs ih =>
      show xs.foldl Node.add_command (Node.add_command (Node.grp c acc) x) = _
      rw [Node.add_command]
      rw [ih]
      simp

theorem construct_commands_count (ds : List Desc) (n : Nat) :
    (construct_commands ds n).2 = n + descCount ds := by
  have H := construct_commands.induct
    (fun d n => (construct_one d n).2 = n + descCountOne d)
    (fun ds n => (construct_commands ds n).2 = n + descCount ds)
  apply H
  · intro ctxf childDescs m ih
    show (construct_one (Desc.dict (some ctxf) childDescs) m).2 = _
    simp only [construct_one, descCountOne]
    rw [ih]
    omega
  · intro t m ht
    cases t with
    | obj x => rfl
    | dict ctx cs =>
        cases ctx with
        | none => rfl
        | some c => exact (ht c cs rfl).elim
  · intro m; rfl
  · intro d rest m first ih1 ih2
    show (construct_commands (d :: rest) m).2 = m + descCount (d :: rest)
    simp only [construct_commands, descCount]
    rw [ih2, ih1]
    omega

theorem construct_one_count (d : Desc) (n : Nat) :
    (construct_one d n).2 = n + descCountOne d := by
  have H := construct_one.induct
    (fun d n => (construct_one d n).2 = n + descCountOne d)
    (fun ds n => (construct_commands ds n).2 = n + descCount ds)
  apply H
  · intro ctxf childDescs m ih
    show (construct_one (Desc.dict (some ctxf) childDescs) m).2 = _
    simp only [construct_one, descCountOne]
    rw [ih]
    omega
  · intro t m ht
    cases t with
    | obj x => rfl
    | dict ctx cs =>
        cases ctx with
        | none => rfl
        | some c => exact (ht c cs rfl).elim
  · intro m; rfl
  · intro d rest m first ih1 ih2
    show (construct_commands (d :: rest) m).2 = m + descCount (d :: rest)
    simp only [construct_commands, descCount]
    rw [ih2, ih1]
    omega

theorem construct_commands_skeleton (ds : List Desc) (n : Nat) :
    Node.skelList (construct_commands ds n).1 = specTreeBuild ds := by
  have H := construct_commands.induct
    (fun d n => Node.skel (construct_one d n).1 = specBuildOne d)
    (fun ds n => Node.skelList (construct_commands ds n).1 = specTreeBuild ds)
  apply H
  · intro ctxf childDescs m ih
    show Node.skel (construct_one (Desc.dict (some ctxf) childDescs) m).1 = _
    simp only [construct_one]
    rw [foldl_add_command]
    simp only [List.nil_append, Node.skel, specBuildOne]
    rw [ih]
    rfl
  · intro t m ht
    cases t with
    | obj x => rfl
    | dict ctx cs =>
        cases ctx with
        | none => rfl
        | some c => exact (ht c cs rfl).elim
  · intro m; rfl
  · intro d rest m first ih1 ih2
    show Node.skelList (construct_commands (d :: rest) m).1 = specTreeBuild (d :: rest)
    simp only [construct_commands, specTreeBuild, Node.skelList]
    rw [ih1, ih2]

theorem construct_commands_groups (ds : List Desc) (n : Nat) :
    (construct_commands ds n).1.map Node.isGroup = ds.map Desc.hasContextKey := by
  have H := construct_commands.induct
    (fun d n => (construct_one d n).1.isGroup = d.hasContextKey)
    (fun ds n => (construct_commands ds n).1.map Node.isGroup = ds.map Desc.hasContextKey)
  apply H
  · intro ctxf childDescs m ih
    show (construct_one (Desc.dict (some ctxf) childDescs) m).1.isGroup = true
    simp only [construct_one]
    rw [foldl_add_command]
    rfl
  · intro t m ht
    cases t with
    | obj x => rfl
    | dict ctx cs =>
        cases ctx with
        | none => rfl
        | some c => exact (ht c cs rfl).elim
  · intro m; rfl
  · intro d rest m first ih1 ih2
    show (construct_commands (d :: rest) m).1.map Node.isGroup = _
    simp only [construct_commands, List.map]
    rw [ih1, ih2]

theorem construct_commands_oids_bound (ds : List Desc) (n : Nat) :
    ∀ i ∈ Node.oidsList (construct_commands ds n).1, n ≤ i ∧ i < n + descCount ds := by
  have H := construct_commands.induct
    (fun d n => ∀ i ∈ Node.oids (construct_one d n).1, n ≤ i ∧ i < n + descCountOne d)
    (fun ds n => ∀ i ∈ Node.oidsList (construct_commands ds n).1, n ≤ i ∧ i < n + descCount ds)
  apply H
  · intro ctxf childDescs m ih i hi
    simp only [construct_one] at hi
    rw [foldl_add_command] at hi
    simp only [List.nil_append, Node.oids, List.mem_cons] at hi
    simp only [descCountOne]
    rcases hi with hi | hi
    · subst hi
      omega
    · obtain ⟨h1, h2⟩ := ih i hi
      omega
  · intro t m ht i hi
    cases t with
    | obj x =>
        simp only [construct_one, Node.oids, List.mem_singleton] at hi
        subst hi
        simp only [descCountOne]
        omega
    | dict ctx cs =>
        cases ctx with
        | none =>
            simp only [construct_one, Node.oids, List.mem_singleton] at hi
            subst hi
            simp only [descCountOne]
            omega
        | some c => exact (ht c cs rfl).elim
  · intro m i hi
    simp only [construct_commands, Node.oidsList] at hi
    exact absurd hi (List.not_mem_nil i)
  · intro d rest m first ih1 ih2 i hi
    simp only [construct_commands, Node.oidsList, List.mem_append] at hi
    simp only [descCount]
    rcases hi with hi | hi
    · obtain ⟨h1, h2⟩ := ih1 i hi
      omega
    · obtain ⟨h1, h2⟩ := ih2 i hi
      rw [construct_one_count] at h1 h2
      omega

theorem find_go_eq_named (o : PyObject) (ns : List String) :
    find_go o ns = (find_go_named o ns).map Prod.snd := by
  induction ns with
  | nil => rfl
  | cons name rest ih =>
      cases hu : startsWithUnderscore name with
      | true => simp [find_go, find_go_named, hu, ih]
      | false =>
          cases hg : getattr o name with
          | none => simp [find_go, find_go_named, hu, hg, ih]
          | some a =>
              cases hc : isClientCommand a with
              | true => simp [find_go, find_go_named, hu, hg, hc, ih]
              | false => simp [find_go, find_go_named, hu, hg, hc, ih]

theorem find_go_named_skip (o : PyObject) (name : String) (rest : List String)
    (h : startsWithUnderscore name = true) :
    find_go_named o (name :: rest) = find_go_named o rest := by
  simp [find_go_named, h]

theorem find_go_named_miss (o : PyObject) (name : String) (rest : List String)
    (h : startsWithUnderscore name = false) (hg : getattr o name = Option.none) :
    find_go_named o (name :: rest) = find_go_named o rest := by
  simp [find_go_named, h, hg]

theorem find_go_named_keep (o : PyObject) (name : String) (rest : List String)
    (b : Attr) (h : startsWithUnderscore name = false) (hg : getattr o name = some b)
    (hc : isClientCommand b = true) :
    find_go_named o (name :: rest) = (name, b) :: find_go_named o rest := by
  simp [find_go_named, h, hg, hc]

theorem find_go_named_drop (o : PyObject) (name : String) (rest : List String)
    (b : Attr) (h : startsWithUnderscore name = false) (hg : getattr o name = some b)
    (hc : isClientCommand b = false) :
    find_go_named o (name :: rest) = find_go_named o rest := by
  simp [find_go_named, h, hg, hc]

theorem find_go_named_fst_sublist (o : PyObject) (ns : List String) :
    List.Sublist ((find_go_named o ns).map Prod.fst) ns := by
  induction ns with
  | nil => simp [find_go_named]
  | cons name rest ih =>
      cases hu : startsWithUnderscore name with
      | true =>
          rw [find_go_named_skip o name rest hu]
          exact List.Sublist.cons name ih
      | false =>
          cases hg : getattr o name with
          | none =>
              rw [find_go_named_miss o name rest hu hg]
              exact List.Sublist.cons name ih
          | some b =>
              cases hc : isClientCommand b with
              | true =>
                  rw [find_go_named_keep o name rest b hu hg hc, List.map_cons]
                  exact List.Sublist.cons₂ name ih
              | false =>
                  rw [find_go_named_drop o name rest b hu hg hc]
                  exact List.Sublist.cons name ih

theorem dir_names_sorted (o : PyObject) : List.Sorted nameLe (dir_names o) := by
  haveI : IsTotal String nameLe := ⟨fun a b => charsLe_total a.data b.data⟩
  haveI : IsTrans String nameLe :=
    ⟨fun a b c h1 h2 => charsLe_trans a.data b.data c.data h1 h2⟩
  exact List.sorted_insertionSort nameLe _

theorem mem_dir_names (o : PyObject) (nm : String) :
    nm ∈ dir_names o ↔ nm ∈ o.attrs.map Prod.fst :=
  (List.perm_insertionSort nameLe _).mem_iff

theorem getattr_mem (o : PyObject) (nm : String) (a : Attr)
    (h : getattr o nm = some a) : (nm, a) ∈ o.attrs := by
  unfold getattr at h
  cases hf : o.attrs.find? (fun p => p.1 = nm) with
  | none => rw [hf] at h; cases h
  | some pr =>
      rw [hf] at h
      have h2 : pr.2 = a := Option.some.inj h
      have hmem := List.mem_of_find?_eq_some hf
      have hp' := List.find?_some hf
      have hp : pr.1 = nm := by simpa using hp'
      rw [← hp, ← h2]
      simpa using hmem

theorem find?_of_mem_nodup (l : List (String × Attr))
    (h : (l.map Prod.fst).Nodup) (nm : String) (a : Attr)
    (hmem : (nm, a) ∈ l) :
    l.find? (fun p => p.1 = nm) = some (nm, a) := by
  induction l with
  | nil => cases hmem
  | cons hd tl ih =>
      rw [List.map_cons, List.nodup_cons] at h
      rcases List.mem_cons.mp hmem with he | hm
      · rw [← he]
        exact List.find?_cons_of_pos _ (by simp)
      · have hne : ¬ hd.1 = nm := by
          intro he
          apply h.1
          rw [he]
          exact List.mem_map_of_mem Prod.fst hm
        rw [List.find?_cons_of_neg _ (by simp [hne])]
        exact ih h.2 hm

theorem getattr_of_mem (o : PyObject) (h : (o.attrs.map Prod.fst).Nodup)
    (nm : String) (a : Attr) (hmem : (nm, a) ∈ o.attrs) :
    getattr o nm = some a := by
  unfold getattr
  rw [find?_of_mem_nodup o.attrs h nm a hmem]
  rfl

theorem find_go_named_mem (o : PyObject) (ns : List String) (nm : String) (a : Attr) :
    (nm, a) ∈ find_go_named o ns ↔
      (nm ∈ ns ∧ getattr o nm = some a ∧ startsWithUnderscore nm = false ∧
        isClientCommand a = true) := by
  induction ns with
  | nil => simp [find_go_named]
  | cons name rest ih =>
      cases hu : startsWithUnderscore name with
      | true =>
          rw [find_go_named_skip o name rest hu, ih]
          constructor
          · rintro ⟨hns, hg2, hu2, hc2⟩
            exact ⟨List.mem_cons_of_mem name hns, hg2, hu2, hc2⟩
          · rintro ⟨hns, hg2, hu2, hc2⟩
            rcases List.mem_cons.mp hns with he | hm
            · subst he; rw [hu] at hu2; cases hu2
            · exact ⟨hm, hg2, hu2, hc2⟩
      | false =>
          cases hg : getattr o name with
          | none =>
              rw [find_go_named_miss o name rest hu hg, ih]
              constructor
              · rintro ⟨hns, hg2, hu2, hc2⟩
                exact ⟨List.mem_cons_of_mem name hns, hg2, hu2, hc2⟩
              · rintro ⟨hns, hg2, hu2, hc2⟩
                rcases List.mem_cons.mp hns with he | hm
                · subst he; rw [hg] at hg2; cases hg2
                · exact ⟨hm, hg2, hu2, hc2⟩
          | some b =>
              cases hc : isClientCommand b with
              | true =>
                  rw [find_go_named_keep o name rest b hu hg hc]
                  rw [List.mem_cons, ih]
                  constructor
                  · rintro (he | ⟨hns, hg2, hu2, hc2⟩)
                    · have h1 : nm = name := congrArg Prod.fst he
                      have h2 : a = b := congrArg Prod.snd he
                      subst h1
                      subst h2
                      exact ⟨List.mem_cons_self nm rest, hg, hu, hc⟩
                    · exact ⟨List.mem_cons_of_mem name hns, hg2, hu2, hc2⟩
                  · rintro ⟨hns, hg2, hu2, hc2⟩
                    rcases List.mem_cons.mp hns with he | hm
                    · subst he
                      rw [hg] at hg2
                      cases hg2
                      exact Or.inl rfl
                    · exact Or.inr ⟨hm, hg2, hu2, hc2⟩
              | false =>
                  rw [find_go_named_drop o name rest b hu hg hc, ih]
                  constructor
                  · rintro ⟨hns, hg2, hu2, hc2⟩
                    exact ⟨List.mem_cons_of_mem name hns, hg2, hu2, hc2⟩
                  · rintro ⟨hns, hg2, hu2, hc2⟩
                    rcases List.mem_cons.mp hns with he | hm
                    · subst he; rw [hg] at hg2; cases hg2; rw [hc] at hc2; cases hc2
                    · exact ⟨hm, hg2, hu2, hc2⟩

/-- C1: invoking the command built by `__create_client_command` from a
function `f` with receiver `r` and arguments `args` calls `f(r, *args)`
exactly once (one call event is appended to the trace); if the call returns
a non-None value `v` it writes `json.dumps(v)` to standard output, if it
returns None it writes nothing; in both cases the command returns `f`'s
result to its caller. -/
theorem command_invocation_behavior (f : PyFunction) (r : Value) (args : List Value)
    (st : Effects) (n : Nat) :
    ((__create_client_command (Desc.obj (FuncOrProp.func f)) n).callback ⟨r⟩ args).run st =
      match f.run r args with
      | .error e => .error e { st with calls := st.calls ++ [⟨f.id, r, args⟩] }
      | .ok v =>
        if v.isNone then
          .ok (v, ⟨r⟩) { st with calls := st.calls ++ [⟨f.id, r, args⟩] }
        else
          match dumps v with
          | .ok s => .ok (v, ⟨r⟩)
              { st with
                  stdout := st.stdout ++ [s],
                  calls := st.calls ++ [⟨f.id, r, args⟩] }
          | .error e => .error e { st with calls := st.calls ++ [⟨f.id, r, args⟩] } := by
  show (commandNewFunc f ⟨r⟩ args).run st = _
  cases hrun : f.run r args with
  | error e =>
      simp [commandNewFunc, run_bind, callPy_run, hrun]
  | ok v =>
      cases hnone : v.isNone with
      | true =>
          simp [commandNewFunc, run_bind, callPy_run, hrun, hnone, run_pure]
      | false =>
          cases hd : dumps v with
          | ok s =>
              simp [commandNewFunc, run_bind, callPy_run, hrun, hnone, ofPy_run, echo_run,
                run_pure, hd]
          | error e =>
              simp [commandNewFunc, run_bind, callPy_run, hrun, hnone, ofPy_run, echo_run,
                run_pure, hd]

/-- C2: invoking the group built by `__create_client_group` from `g` with
receiver `r` calls `g(r)` exactly once, writes nothing to standard output,
and publishes `g(r)`'s return value as the context object, so that a child
command subsequently invoked within the group runs with `g(r)`'s return
value — not `r` — as its receiver context. -/
theorem group_invocation_behavior (g : PyFunction) (child : ClickCommand) (r : Value)
    (gargs cargs : List Value) (st : Effects) (n : Nat) :
    (((__create_client_group (FuncOrProp.func g) n).callback ⟨r⟩ gargs).run st =
      match g.run r gargs with
      | .error e => .error e { st with calls := st.calls ++ [⟨g.id, r, gargs⟩] }
      | .ok w => .ok (Value.none, ⟨w⟩)
          { st with calls := st.calls ++ [⟨g.id, r, gargs⟩] }) ∧
    ((invokeGroupThenChild (__create_client_group (FuncOrProp.func g) n) child
        ⟨r⟩ gargs cargs).run st =
      match g.run r gargs with
      | .error e => .error e { st with calls := st.calls ++ [⟨g.id, r, gargs⟩] }
      | .ok w => (child.callback ⟨w⟩ cargs).run
          { st with calls := st.calls ++ [⟨g.id, r, gargs⟩] }) := by
  constructor
  · show (groupNewFunc g ⟨r⟩ gargs).run st = _
    cases hrun : g.run r gargs with
    | error e => simp [groupNewFunc, run_bind, callPy_run, hrun]
    | ok w => simp [groupNewFunc, run_bind, callPy_run, hrun, run_pure]
  · cases hrun : g.run r gargs with
    | error e =>
        simp [invokeGroupThenChild, __create_client_group, update_wrapper, clickCommandOf,
          FuncOrProp.actual, groupNewFunc, run_bind, callPy_run, hrun]
    | ok w =>
        simp [invokeGroupThenChild, __create_client_group, update_wrapper, clickCommandOf,
          FuncOrProp.actual, groupNewFunc, run_bind, callPy_run, hrun, run_pure]

/-- C3: `find_client_commands(O)` returns exactly the attributes of `O`
whose name does not start with an underscore and whose resolved value is a
function, bound method or generator function — no other attribute is
included and none of these is omitted — in attribute enumeration order,
i.e. lexicographically by attribute name. -/
theorem find_client_commands_spec (o : PyObject)
    (h : (o.attrs.map Prod.fst).Nodup) :
    find_client_commands o = (find_named o).map Prod.snd ∧
    List.Sorted nameLe ((find_named o).map Prod.fst) ∧
    ∀ nm a, ((nm, a) ∈ find_named o ↔
      ((nm, a) ∈ o.attrs ∧ startsWithUnderscore nm = false ∧
        isClientCommand a = true)) := by
  refine ⟨find_go_eq_named o _, ?_, ?_⟩
  · exact List.Pairwise.sublist (find_go_named_fst_sublist o _) (dir_names_sorted o)
  · intro nm a
    rw [show find_named o = find_go_named o (dir_names o) from rfl, find_go_named_mem]
    constructor
    · rintro ⟨hns, hg, hu, hc⟩
      exact ⟨getattr_mem o nm a hg, hu, hc⟩
    · rintro ⟨hmem, hu, hc⟩
      exact ⟨(mem_dir_names o nm).mpr (List.mem_map_of_mem Prod.fst hmem),
        getattr_of_mem o h nm a hmem, hu, hc⟩

/-- C3 witness: the specification evaluated on the sample client object. -/
theorem find_client_commands_spec_witness :
    (sampleObj.attrs.map Prod.fst).Nodup ∧
    (find_client_commands sampleObj = (find_named sampleObj).map Prod.snd ∧
      List.Sorted nameLe ((find_named sampleObj).map Prod.fst) ∧
      ∀ nm a, ((nm, a) ∈ find_named sampleObj ↔
        ((nm, a) ∈ sampleObj.attrs ∧ startsWithUnderscore nm = false ∧
          isClientCommand a = true))) :=
  ⟨by decide, find_client_commands_spec sampleObj (by decide)⟩

/-- C4: `construct_commands` processes the descriptors in input order,
depth-first: a dict with a `context` key becomes a group built from its
`context` entry whose children are the recursively built `commands`
descriptors, attached in order before the group is produced, and any other
descriptor becomes a leaf command; the produced sequence is finite, has one
node per descriptor, and preserves input order at every level (its shape is
exactly `specTreeBuild`); the allocation counter shows the single left to
right pass. -/
theorem construct_commands_builds_spec_tree (ds : List Desc) (n : Nat) :
    Node.skelList (construct_commands ds n).1 = specTreeBuild ds ∧
    (construct_commands ds n).1.length = ds.length ∧
    (construct_commands ds n).2 = n + descCount ds := by
  refine ⟨construct_commands_skeleton ds n, ?_, construct_commands_count ds n⟩
  have h := congrArg List.length (construct_commands_groups ds n)
  simpa using h

/-- C5: an exception raised by the wrapped callable during invocation of a
built leaf command propagates unchanged to the caller, and a non-None
result rejected by `json.dumps` makes the serialization exception propagate
at output time, with nothing written to standard output and no fallback
formatting. -/
theorem command_error_propagation (f : PyFunction) (r : Value) (args : List Value)
    (st : Effects) (n : Nat) :
    (∀ e, f.run r args = .error e →
      ((__create_client_command (Desc.obj (FuncOrProp.func f)) n).callback ⟨r⟩ args).run st =
        .error e { st with calls := st.calls ++ [⟨f.id, r, args⟩] }) ∧
    (∀ v e, f.run r args = .ok v → dumps v = .error e →
      ((__create_client_command (Desc.obj (FuncOrProp.func f)) n).callback ⟨r⟩ args).run st =
        .error e { st with calls := st.calls ++ [⟨f.id, r, args⟩] }) := by
  constructor
  · intro e he
    show (commandNewFunc f ⟨r⟩ args).run st = _
    simp [commandNewFunc, run_bind, callPy_run, he]
  · intro v e hv hd
    show (commandNewFunc f ⟨r⟩ args).run st = _
    cases hnone : v.isNone with
    | true =>
        cases v
        case none => simp [dumps] at hd
        all_goals simp [Value.isNone] at hnone
    | false =>
        simp [commandNewFunc, run_bind, callPy_run, hv, hnone, ofPy_run, echo_run,
          run_pure, hd]

/-- C5 witness: a raising method and a method returning a non-serializable
value, each invoked through the built command. -/
theorem command_error_propagation_witness :
    ((__create_client_command (Desc.obj (FuncOrProp.func fRaise)) 0).callback
        ⟨Value.obj 0⟩ []).run {} =
      .error (.userError "boom") { stdout := [], calls := [⟨4, Value.obj 0, []⟩] } ∧
    ((__create_client_command (Desc.obj (FuncOrProp.func fBad)) 0).callback
        ⟨Value.obj 0⟩ []).run {} =
      .error (.typeError "Object is not JSON serializable")
        { stdout := [], calls := [⟨5, Value.obj 0, []⟩] } :=
  ⟨(command_error_propagation fRaise (Value.obj 0) [] {} 0).1 _ rfl,
   (command_error_propagation fBad (Value.obj 0) [] {} 0).2 _ _ rfl rfl⟩

/-- C6: the CLI parameter metadata (and name and help text) declared on the
wrapped function is present, unchanged, on the built command and group
nodes: building and then inspecting yields the original parameter
surface. -/
theorem metadata_round_trip (f : PyFunction) (p : PyProperty) (n : Nat) :
    (__create_client_command (Desc.obj (FuncOrProp.func f)) n).params = f.click_params ∧
    (__create_client_group (FuncOrProp.func f) n).params = f.click_params ∧
    (__create_client_command (Desc.obj (FuncOrProp.prop p)) n).params =
      p.fget.click_params ∧
    (__create_client_group (FuncOrProp.prop p) n).params = p.fget.click_params ∧
    (__create_client_command (Desc.obj (FuncOrProp.func f)) n).name = f.name ∧
    (__create_client_group (FuncOrProp.func f) n).name = f.name ∧
    (__create_client_command (Desc.obj (FuncOrProp.func f)) n).help = f.doc ∧
    (__create_client_group (FuncOrProp.func f) n).help = f.doc :=
  ⟨rfl, rfl, rfl, rfl, rfl, rfl, rfl, rfl⟩

/-- C7: building the same descriptor list twice yields structurally
equivalent trees (the same skeleton of names, parameters and parent/child
shape) made of distinct click objects: the allocation identities of the two
builds are disjoint, so no node is shared between them. -/
theorem construct_commands_independent_builds (ds : List Desc) (n : Nat) :
    Node.skelList (construct_commands ds n).1 =
      Node.skelList (construct_commands ds (construct_commands ds n).2).1 ∧
    List.Disjoint (Node.oidsList (construct_commands ds n).1)
      (Node.oidsList (construct_commands ds (construct_commands ds n).2).1) := by
  constructor
  · rw [construct_commands_skeleton, construct_commands_skeleton]
  · intro i h1 h2
    have b1 := construct_commands_oids_bound ds n i h1
    have b2 := construct_commands_oids_bound ds (construct_commands ds n).2 i h2
    rw [construct_commands_count ds n] at b2
    omega

/-- C8: both builders use `f.fget` as the wrapped callable when given a
property (building from the property is the same as building from its
getter), and use `f` itself unchanged otherwise. -/
theorem property_getter_extraction (p : PyProperty) (f : PyFunction) (n : Nat) :
    __create_client_command (Desc.obj (FuncOrProp.prop p)) n =
      __create_client_command (Desc.obj (FuncOrProp.func p.fget)) n ∧
    __create_client_group (FuncOrProp.prop p) n =
      __create_client_group (FuncOrProp.func p.fget) n ∧
    (Desc.obj (FuncOrProp.prop p)).actual_f = p.fget ∧
    (FuncOrProp.prop p).actual = p.fget ∧
    (Desc.obj (FuncOrProp.func f)).actual_f = f ∧
    (FuncOrProp.func f).actual = f :=
  ⟨rfl, rfl, rfl, rfl, rfl, rfl⟩

/-- C9: an element of the descriptor list is built as a group exactly when
it is a dict that contains the key `context`; every other element —
including a dict without that key — is handed to `__create_client_command`
and becomes a leaf command, never rejected. -/
theorem context_key_selects_group (ds : List Desc) (n : Nat) :
    (construct_commands ds n).1.map Node.isGroup = ds.map Desc.hasContextKey ∧
    ∀ d m, d.hasContextKey = false →
      construct_commands [d] m = ([Node.cmd (__create_client_command d m)], m + 1) := by
  refine ⟨construct_commands_groups ds n, ?_⟩
  intro d m hd
  cases d with
  | obj x => rfl
  | dict ctx cs =>
      cases ctx with
      | none => rfl
      | some c => simp [Desc.hasContextKey] at hd

/-- C9 witness: a dict descriptor without a `context` key becomes a leaf
command. -/
theorem context_key_selects_group_witness :
    construct_commands [Desc.dict Option.none []] 0 =
      ([Node.cmd (__create_client_command (Desc.dict Option.none []) 0)], 1) :=
  (context_key_selects_group [] 0).2 (Desc.dict Option.none []) 0 rfl

/-- C10: the wrapper of a built group returns None to its caller — the new
context object is published only through `ctx.obj`, never returned — while
the leaf wrapper returns its result. -/
theorem group_wrapper_returns_none (g f : PyFunction) (r w v : Value) (s : String)
    (args : List Value) (st : Effects) (n : Nat)
    (hg : g.run r args = .ok w)
    (hf : f.run r args = .ok v) (hv : v.isNone = false) (hd : dumps v = .ok s) :
    ((__create_client_group (FuncOrProp.func g) n).callback ⟨r⟩ args).run st =
      .ok (Value.none, ⟨w⟩) { st with calls := st.calls ++ [⟨g.id, r, args⟩] } ∧
    ((__create_client_command (Desc.obj (FuncOrProp.func f)) n).callback ⟨r⟩ args).run st =
      .ok (v, ⟨r⟩) { st with
        stdout := st.stdout ++ [s],
        calls := st.calls ++ [⟨f.id, r, args⟩] } := by
  constructor
  · show (groupNewFunc g ⟨r⟩ args).run st = _
    simp [groupNewFunc, run_bind, callPy_run, hg, run_pure]
  · show (commandNewFunc f ⟨r⟩ args).run st = _
    simp [commandNewFunc, run_bind, callPy_run, hf, hv, ofPy_run, echo_run, run_pure, hd]

/-- C10 witness: the sample context getter publishes the sub-client and
returns None; the sample list method returns (and prints) its result. -/
theorem group_wrapper_returns_none_witness :
    ((__create_client_group (FuncOrProp.func gAccounts) 0).callback
        ⟨Value.obj 0⟩ []).run {} =
      .ok (Value.none, ⟨Value.obj 7⟩) { stdout := [], calls := [⟨1, Value.obj 0, []⟩] } ∧
    ((__create_client_command (Desc.obj (FuncOrProp.func fList)) 0).callback
        ⟨Value.obj 0⟩ []).run {} =
      .ok (Value.list [Value.int 1], ⟨Value.obj 0⟩)
        { stdout := ["[1]"], calls := [⟨2, Value.obj 0, []⟩] } :=
  group_wrapper_returns_none gAccounts fList (Value.obj 0) (Value.obj 7)
    (Value.list [Value.int 1]) "[1]" [] {} 0 rfl rfl rfl rfl
